import Mathlib

/-!
# Link service of the URL shortener (`services/link-service/main.go`)

A shallow embedding of the three HTTP handlers `CreateLink`, `GetAllLinks`,
`DeleteLink` and of `generateShortURLID`, followed by the properties of the
specification that concern them.

Go strings that are text (the request URL, ids, messages) are Lean `String`s;
`len(s)` is the number of bytes of the UTF-8 encoding, `String.utf8ByteSize`.
Strings that the URL parser produces are kept as raw bytes (`List UInt8`),
because percent-decoding may produce bytes that are not UTF-8.

Everything the handlers reach outside `main.go` is explicit:
* `Env` holds the outcomes of `rand.Int`, the readings of `time.Now` and the
  function `url.ParseRequestURI`;
* `LinkService σ` is the collaborator `h.linkService`, a transition system on
  a state `σ` (everything that lives behind it: repository and cache).
-/

namespace UrlShortener

/-! ## Data model -/

/-- The entity `domain.Link`; `CreatedAt` is kept as the clock reading in
nanoseconds since the epoch. -/
structure Link where
  Id : String
  OriginalURL : String
  CreatedAt : Int
deriving DecidableEq, Repr, Inhabited

/-- The fields of `url.URL` that `CreateLink` reads, as raw bytes. -/
structure URL where
  Scheme : List UInt8
  Host : List UInt8
deriving DecidableEq, Repr

/-- The bytes of a Go string literal. -/
def utf8 (s : String) : List UInt8 := s.toUTF8.data.toList

/-- What the handlers obtain from the standard library.
* `randInt n` is the outcome of the `n`-th call `rand.Int(rand.Reader, 62)`
  of the process: `none` when it returns an error, `some k` for the value `k`.
* `unixNano n` is `UnixNano()` of the `n`-th reading `time.Now()`.
* `ParseRequestURI` is `url.ParseRequestURI`, `none` standing for an error. -/
structure Env where
  randInt : Nat → Option Nat
  unixNano : Nat → Int
  ParseRequestURI : String → Option URL

/-- How many draws and clock readings have been consumed so far. -/
structure Cursor where
  rand : Nat
  now : Nat
deriving DecidableEq, Repr

/-! ## `url.ParseRequestURI`

The function is Go's standard library (`net/url`, as of go1.21), not code of
this repository. The general results below hold for whatever function
`Env.ParseRequestURI` is; the model is used for the concrete URLs only. It
follows `parse(rawURL, viaRequest = true)` byte for byte and keeps the two
fields `CreateLink` reads. -/

namespace url

/-- The byte of an ASCII character. -/
def b (c : Char) : UInt8 := c.toNat.toUInt8

/-- The modes of `shouldEscape` and `unescape` that `parse` reaches. -/
inductive encoding
  | encodePath
  | encodeHost
  | encodeZone
  | encodeUserPassword
deriving DecidableEq, Repr

/-- The function `stringContainsCTLByte`. -/
def stringContainsCTLByte (s : List UInt8) : Bool :=
  s.any (fun c => c < b ' ' || c == 0x7f)

/-- Letters, the first case of `getScheme`. -/
def isAlpha (c : UInt8) : Bool :=
  (b 'a' ≤ c && c ≤ b 'z') || (b 'A' ≤ c && c ≤ b 'Z')

/-- Digits. -/
def isDigit (c : UInt8) : Bool := b '0' ≤ c && c ≤ b '9'

/-- The loop of `getScheme`: `pre` is `rawURL[:i]`, the list is `rawURL[i:]`.
The result is the scheme and the rest; `none` is "missing protocol scheme". -/
def getSchemeLoop (rawURL : List UInt8) : List UInt8 → List UInt8 → Option (List UInt8 × List UInt8)
  | _, [] => some ([], rawURL)
  | pre, c :: cs =>
    if isAlpha c then getSchemeLoop rawURL (pre ++ [c]) cs
    else if isDigit c || c == b '+' || c == b '-' || c == b '.' then
      if pre = [] then some ([], rawURL) else getSchemeLoop rawURL (pre ++ [c]) cs
    else if c == b ':' then
      if pre = [] then none else some (pre, cs)
    else some ([], rawURL)

/-- The function `getScheme`. -/
def getScheme (rawURL : List UInt8) : Option (List UInt8 × List UInt8) :=
  getSchemeLoop rawURL [] rawURL

/-- The function `strings.ToLower` on the bytes of a scheme (ASCII only). -/
def toLower (s : List UInt8) : List UInt8 :=
  s.map (fun c => if b 'A' ≤ c && c ≤ b 'Z' then c + 32 else c)

/-- The function `ishex`. -/
def ishex (c : UInt8) : Bool :=
  isDigit c || (b 'a' ≤ c && c ≤ b 'f') || (b 'A' ≤ c && c ≤ b 'F')

/-- The function `unhex`. -/
def unhex (c : UInt8) : UInt8 :=
  if isDigit c then c - b '0'
  else if b 'a' ≤ c && c ≤ b 'f' then c - b 'a' + 10
  else if b 'A' ≤ c && c ≤ b 'F' then c - b 'A' + 10
  else 0

/-- The function `shouldEscape`, for the four modes above. -/
def shouldEscape (c : UInt8) (mode : encoding) : Bool :=
  if isAlpha c || isDigit c then false
  else if (mode = encoding.encodeHost ∨ mode = encoding.encodeZone) ∧
      c ∈ [b '!', b '$', b '&', 0x27, b '(', b ')', b '*', b '+', b ',', b ';', b '=',
           b ':', b '[', b ']', b '<', b '>', 0x22] then false
  else if c ∈ [b '-', b '_', b '.', b '~'] then false
  else if c ∈ [b '$', b '&', b '+', b ',', b '/', b ':', b ';', b '=', b '?', b '@'] then
    match mode with
    | encoding.encodePath => c == b '?'
    | encoding.encodeUserPassword => c == b '@' || c == b '/' || c == b '?' || c == b ':'
    | _ => true
  else true

/-- The function `unescape`: `none` is an `EscapeError` or `InvalidHostError`.
Go validates the whole string in a first pass and decodes in a second; one
pass gives the same result. -/
def unescape (mode : encoding) : List UInt8 → Option (List UInt8)
  | [] => some []
  | c :: rest =>
    if c = b '%' then
      match rest with
      | h1 :: h2 :: rest' =>
        if !ishex h1 || !ishex h2 then none
        else if mode = encoding.encodeHost ∧ unhex h1 < 8 ∧ [c, h1, h2] ≠ utf8 "%25" then none
        else if mode = encoding.encodeZone ∧ [c, h1, h2] ≠ utf8 "%25" ∧
            (unhex h1 <<< 4 ||| unhex h2) ≠ b ' ' ∧
            shouldEscape (unhex h1 <<< 4 ||| unhex h2) encoding.encodeHost then none
        else (unescape mode rest').map (fun t => (unhex h1 <<< 4 ||| unhex h2) :: t)
      | _ => none
    else if c = b '+' then (unescape mode rest).map (fun t => c :: t)
    else if (mode = encoding.encodeHost ∨ mode = encoding.encodeZone) ∧ c < 0x80 ∧
        shouldEscape c mode then none
    else (unescape mode rest).map (fun t => c :: t)

/-- The function `strings.HasPrefix`. -/
def startsWith : List UInt8 → List UInt8 → Bool
  | _, [] => true
  | [], _ :: _ => false
  | x :: xs, p :: ps => x == p && startsWith xs ps

/-- The function `strings.LastIndex` for a one-byte separator. -/
def lastIndexByte (c : UInt8) : List UInt8 → Option Nat
  | [] => none
  | x :: xs =>
    match lastIndexByte c xs with
    | some i => some (i + 1)
    | none => if x = c then some 0 else none

/-- The function `strings.Index`. -/
def index (sub : List UInt8) : List UInt8 → Option Nat
  | [] => if sub = [] then some 0 else none
  | x :: xs => if startsWith (x :: xs) sub then some 0 else (index sub xs).map (fun i => i + 1)

/-- The function `validOptionalPort`. -/
def validOptionalPort : List UInt8 → Bool
  | [] => true
  | c :: digits => c == b ':' && digits.all isDigit

/-- The function `validUserinfo`. -/
def validUserinfo (s : List UInt8) : Bool :=
  s.all (fun r => isAlpha r || isDigit r ||
    decide (r ∈ [b '-', b '.', b '_', b ':', b '~', b '!', b '$', b '&', 0x27, b '(', b ')',
                 b '*', b '+', b ',', b ';', b '=', b '%', b '@']))

/-- The function `parseHost`; `none` is an error. -/
def parseHost (host : List UInt8) : Option (List UInt8) :=
  if startsWith host [b '['] then
    match lastIndexByte (b ']') host with
    | none => none
    | some i =>
      if !validOptionalPort (host.drop (i + 1)) then none
      else
        match index (utf8 "%25") (host.take i) with
        | some zone =>
          match unescape encoding.encodeHost (host.take zone),
                unescape encoding.encodeZone ((host.take i).drop zone),
                unescape encoding.encodeHost (host.drop i) with
          | some host1, some host2, some host3 => some (host1 ++ host2 ++ host3)
          | _, _, _ => none
        | none => unescape encoding.encodeHost host
  else
    match lastIndexByte (b ':') host with
    | some i =>
      if !validOptionalPort (host.drop i) then none else unescape encoding.encodeHost host
    | none => unescape encoding.encodeHost host

/-- The function `parseAuthority`, keeping the host; `none` is an error. -/
def parseAuthority (authority : List UInt8) : Option (List UInt8) :=
  match lastIndexByte (b '@') authority with
  | none => parseHost authority
  | some i =>
    match parseHost (authority.drop (i + 1)) with
    | none => none
    | some host =>
      let userinfo := authority.take i
      if !validUserinfo userinfo then none
      else if !userinfo.contains (b ':') then
        (unescape encoding.encodeUserPassword userinfo).map (fun _ => host)
      else
        match unescape encoding.encodeUserPassword (userinfo.takeWhile (fun c => c != b ':')),
              unescape encoding.encodeUserPassword
                ((userinfo.dropWhile (fun c => c != b ':')).drop 1) with
        | some _, some _ => some host
        | _, _ => none

/-- The function `parse(rawURL, viaRequest)` at `viaRequest = true`; `none` is
an error. `setPath` can only fail through `unescape(rest, encodePath)`. -/
def parse (rawURL : List UInt8) : Option URL :=
  if stringContainsCTLByte rawURL then none
  else if rawURL = [] then none
  else if rawURL = utf8 "*" then some ⟨[], []⟩
  else
    match getScheme rawURL with
    | none => none
    | some (scheme, afterScheme) =>
      let rest := afterScheme.takeWhile (fun c => c != b '?')
      if !startsWith rest (utf8 "/") then
        if toLower scheme ≠ [] then some ⟨toLower scheme, []⟩ else none
      else if toLower scheme ≠ [] ∧ startsWith rest (utf8 "//") then
        match parseAuthority ((rest.drop 2).takeWhile (fun c => c != b '/')) with
        | none => none
        | some host =>
          match unescape encoding.encodePath ((rest.drop 2).dropWhile (fun c => c != b '/')) with
          | none => none
          | some _ => some ⟨toLower scheme, host⟩
      else
        match unescape encoding.encodePath rest with
        | none => none
        | some _ => some ⟨toLower scheme, []⟩

/-- The function `url.ParseRequestURI`. -/
def ParseRequestURI (rawURL : String) : Option URL := parse (utf8 rawURL)

end url

/-! ## `generateShortURLID` -/

/-- The constant `charset` of `generateShortURLID`. -/
def charset : String := "abcdefghijklmnopqrstuvwxyzABCDEFGHIJKLMNOPQRSTUVWXYZ0123456789"

/-- The loop `for i := range result` of `generateShortURLID` with `n` positions
still to fill; `acc` holds the bytes written so far (all ASCII, hence kept as
characters). An error of `rand.Int` returns the fallback string at once; an
index outside `charset` is a run-time panic, rendered as `none`. -/
def fill (env : Env) : Nat → List Char → Cursor → Option (String × Cursor)
  | 0, acc, c => some (String.mk acc, c)
  | n + 1, acc, c =>
    match env.randInt c.rand with
    | none => some ("fallback" ++ toString (env.unixNano c.now), ⟨c.rand + 1, c.now + 1⟩)
    | some k =>
      match charset.data.get? k with
      | none => none
      | some ch => fill env n (acc ++ [ch]) ⟨c.rand + 1, c.now⟩

/-- The function `generateShortURLID(length)`, started with the cursor `c`. -/
def generateShortURLID (env : Env) (length : Nat) (c : Cursor) : Option (String × Cursor) :=
  fill env length [] c

/-! ## The handlers -/

/-- The collaborator `h.linkService` (`*services.LinkService`) as the handlers
use it: each method maps the state behind it to its result and the next state;
an `error` is its message, `none` is `nil`. -/
structure LinkService (σ : Type) where
  Create : σ → Link → Option String × σ
  GetAll : σ → Except String (List Link) × σ
  Delete : σ → String → Option String × σ

/-- The struct `LinkServiceHandler`. -/
structure LinkServiceHandler (σ : Type) where
  linkService : LinkService σ

/-- The calls a handler makes, in order. -/
inductive Event
  | generated (id : String)
  | create (link : Link)
  | getAll
  | delete (id : String)
deriving DecidableEq, Repr

/-- The state a handler runs in. -/
structure St (σ : Type) where
  svc : σ
  cur : Cursor
  trace : List Event
deriving DecidableEq

/-- The JSON body written by `c.JSON`. -/
inductive Body
  | bindingError
  | error (msg : String)
  | link (l : Link)
  | links (ls : List Link)
  | null
deriving DecidableEq, Repr

/-- The response written by a handler. -/
structure Response where
  status : Nat
  body : Body
deriving DecidableEq, Repr

/-- The constant `http.StatusOK`. -/
def StatusOK : Nat := 200
/-- The constant `http.StatusNoContent`. -/
def StatusNoContent : Nat := 204
/-- The constant `http.StatusBadRequest`. -/
def StatusBadRequest : Nat := 400
/-- The constant `http.StatusInternalServerError`. -/
def StatusInternalServerError : Nat := 500

/-- The local `maxRetries` of `CreateLink`. -/
def maxRetries : Nat := 3

/-- The body of the retry loop of `CreateLink`: build the link (id first, then
the timestamp), call `Create`. Returns the link, `errCreate` and the next
state; `none` when `generateShortURLID` panics. -/
def attempt {σ : Type} (h : LinkServiceHandler σ) (env : Env) (long : String) (s : St σ) :
    Option (Link × Option String × St σ) :=
  match generateShortURLID env 8 s.cur with
  | none => none
  | some (id, c) =>
    let link : Link := { Id := id, OriginalURL := long, CreatedAt := env.unixNano c.now }
    let r := h.linkService.Create s.svc link
    some (link, r.1,
      { svc := r.2, cur := ⟨c.rand, c.now + 1⟩,
        trace := s.trace ++ [Event.generated id, Event.create link] })

/-- The loop `for i := 0; i < maxRetries; i++` with `n` iterations left; `link`
and `err` are the current values of the variables `link` and `errCreate`. -/
def retry {σ : Type} (h : LinkServiceHandler σ) (env : Env) (long : String) :
    Nat → St σ → Link → Option String → Option (Link × Option String × St σ)
  | 0, s, link, err => some (link, err, s)
  | n + 1, s, _, _ =>
    match attempt h env long s with
    | none => none
    | some (link, none, s') => some (link, none, s')
    | some (link, some e, s') => retry h env long n s' link (some e)

/-- The handler `CreateLink`; `long` is `req.Long` as bound from the body (the
tag `binding:"required"` makes the binding fail on the empty string). The
result is the response and the state after it, `none` when the handler
panicked. -/
def LinkServiceHandler.CreateLink {σ : Type} (h : LinkServiceHandler σ) (env : Env)
    (long : String) (s : St σ) : Option (Response × St σ) :=
  if long = "" then some (⟨StatusBadRequest, Body.bindingError⟩, s)
  else
    match env.ParseRequestURI long with
    | none =>
      some (⟨StatusBadRequest, Body.error "A valid URL with http or https scheme is required"⟩, s)
    | some parsedURL =>
      if (parsedURL.Scheme ≠ utf8 "http" ∧ parsedURL.Scheme ≠ utf8 "https") ∨ parsedURL.Host = [] then
        some (⟨StatusBadRequest, Body.error "A valid URL with http or https scheme is required"⟩, s)
      else if long.utf8ByteSize > 2048 then
        some (⟨StatusBadRequest, Body.error "URL cannot exceed 2048 characters"⟩, s)
      else
        match retry h env long maxRetries s default none with
        | none => none
        | some (_, some _, s') =>
          some (⟨StatusInternalServerError,
            Body.error "Failed to create unique link, please try again"⟩, s')
        | some (link, none, s') => some (⟨StatusOK, Body.link link⟩, s')

/-- The handler `GetAllLinks`. -/
def LinkServiceHandler.GetAllLinks {σ : Type} (h : LinkServiceHandler σ) (s : St σ) :
    Response × St σ :=
  let r := h.linkService.GetAll s.svc
  let s' : St σ := { s with svc := r.2, trace := s.trace ++ [Event.getAll] }
  match r.1 with
  | Except.error _ => (⟨StatusInternalServerError, Body.error "Failed to get links"⟩, s')
  | Except.ok links => (⟨StatusOK, Body.links links⟩, s')

/-- The handler `DeleteLink`; `id` is `c.Param("id")`. -/
def LinkServiceHandler.DeleteLink {σ : Type} (h : LinkServiceHandler σ) (id : String)
    (s : St σ) : Response × St σ :=
  if id = "" then (⟨StatusBadRequest, Body.error "ID parameter is required"⟩, s)
  else
    let r := h.linkService.Delete s.svc id
    let s' : St σ := { s with svc := r.2, trace := s.trace ++ [Event.delete id] }
    match r.1 with
    | some err => (⟨StatusInternalServerError, Body.error err⟩, s')
    | none => (⟨StatusNoContent, Body.null⟩, s')

/-! ## The service behind the handlers, from the specification -/

/-- Modelled from the spec: the error kinds of the Link Repository (§4.2, §7);
the repository adapter is not part of `main.go`. -/
inductive RepoError
  | Conflict
  | NotFound
  | StoreError (msg : String)
deriving DecidableEq, Repr

/-- Modelled from the spec: the message under which the service surfaces a
repository error (`err.Error()` in `DeleteLink`); the wording is not fixed
by the specification. -/
def RepoError.Error : RepoError → String
  | RepoError.Conflict => "conflict"
  | RepoError.NotFound => "not found"
  | RepoError.StoreError msg => msg

/-- Modelled from the spec: the Link Repository interface of §4.2 (`Create`,
`GetAll`, `Delete`), a transition system on the store `ρ`. -/
structure Repository (ρ : Type) where
  Create : ρ → Link → Option RepoError × ρ
  GetAll : ρ → Except RepoError (List Link) × ρ
  Delete : ρ → String → Option RepoError × ρ

/-- Modelled from the spec: the Link Cache interface of §4.3, `Get(id) ->
(value, found)`, `Set(id, value) -> error`, `Delete(id) -> error`. -/
structure Cache (κ : Type) where
  Get : κ → String → Option Link
  Set : κ → String → Link → Option String × κ
  Delete : κ → String → Option String × κ

/-- Modelled from the spec: `services.LinkService` (package
`internal/core/services`, missing from the sources), after §4.4 and §7.
* `Create`: call the repository; on success populate the cache, a cache error
  not failing the operation.
* `GetAll`: delegate to the repository, no cache involvement.
* `Delete`: delete from the repository, delete the same id from the cache
  regardless of the repository outcome, treat not-found as success and surface
  any other repository error. -/
def specLinkService {ρ κ : Type} (repo : Repository ρ) (cache : Cache κ) : LinkService (ρ × κ) where
  Create := fun s link =>
    match repo.Create s.1 link with
    | (none, r) => (none, (r, (cache.Set s.2 link.Id link).2))
    | (some e, r) => (some e.Error, (r, s.2))
  GetAll := fun s =>
    match repo.GetAll s.1 with
    | (Except.ok links, r) => (Except.ok links, (r, s.2))
    | (Except.error e, r) => (Except.error e.Error, (r, s.2))
  Delete := fun s id =>
    match repo.Delete s.1 id with
    | (none, r) => (none, (r, (cache.Delete s.2 id).2))
    | (some RepoError.NotFound, r) => (none, (r, (cache.Delete s.2 id).2))
    | (some e, r) => (some e.Error, (r, (cache.Delete s.2 id).2))

/-! ## The error kinds of the specification (§7) on responses -/

/-- The kind `InvalidArgument`: the handler answers 400. -/
def InvalidArgument (r : Response) : Prop := r.status = StatusBadRequest

/-- The kind `CreateFailed`: the answer of `CreateLink` when the retries are used up. -/
def CreateFailed (r : Response) : Prop :=
  r = ⟨StatusInternalServerError, Body.error "Failed to create unique link, please try again"⟩

/-- The kind `StoreError`: a failure of the store surfaced to the caller, 500. -/
def StoreError (r : Response) : Prop := r.status = StatusInternalServerError

/-- Success of `DeleteLink`: 204 with no content. -/
def Deleted (r : Response) : Prop := r = ⟨StatusNoContent, Body.null⟩

instance (r : Response) : Decidable (InvalidArgument r) := by
  unfold InvalidArgument; exact inferInstance

instance (r : Response) : Decidable (CreateFailed r) := by
  unfold CreateFailed; exact inferInstance

instance (r : Response) : Decidable (StoreError r) := by
  unfold StoreError; exact inferInstance

instance (r : Response) : Decidable (Deleted r) := by
  unfold Deleted; exact inferInstance

/-! ## Auxiliary definitions and concrete instances -/

/-- The alphabet character at index `k`. -/
def charAt (k : Nat) : Char := charset.data.getD k 'a'

/-- An environment whose secure source never fails: the `n`-th draw is
`n % 62`, the `n`-th clock reading is `1700000000000000000 + n`. -/
def envGood : Env where
  randInt := fun n => some (n % 62)
  unixNano := fun n => 1700000000000000000 + n
  ParseRequestURI := url.ParseRequestURI

/-- An environment whose secure source always fails. -/
def envDown : Env where
  randInt := fun _ => none
  unixNano := fun n => 1700000000000000000 + n
  ParseRequestURI := url.ParseRequestURI

/-- An environment whose secure source fails at the fourth draw only. -/
def envFlaky : Env where
  randInt := fun n => if n = 3 then none else some (n % 62)
  unixNano := fun n => 1700000000000000000 + n
  ParseRequestURI := url.ParseRequestURI

/-- The cursor of a fresh process. -/
def cursor0 : Cursor := ⟨0, 0⟩

/-- The checks of `CreateLink` before the retry loop, read off the handler:
the binding succeeds (`req.Long` is not empty), `url.ParseRequestURI` reports
no error, the scheme is `http` or `https`, the host is not empty, and
`len(req.Long)`, a number of bytes, is at most 2048. -/
def validURL (env : Env) (long : String) : Prop :=
  long ≠ "" ∧
  (match env.ParseRequestURI long with
    | none => False
    | some parsedURL =>
      (parsedURL.Scheme = utf8 "http" ∨ parsedURL.Scheme = utf8 "https") ∧ parsedURL.Host ≠ []) ∧
  long.utf8ByteSize ≤ 2048

instance (env : Env) (long : String) : Decidable (validURL env long) := by
  unfold validURL
  cases env.ParseRequestURI long <;> exact inferInstance

/-- The state reached from `s` by `j` consecutive passes through the loop body
each of which `Create` rejected; `none` when one of these passes succeeded or
panicked. -/
def rejected {σ : Type} (h : LinkServiceHandler σ) (env : Env) (long : String) :
    Nat → St σ → Option (St σ)
  | 0, s => some s
  | j + 1, s =>
    match attempt h env long s with
    | some (_, some _, s') => rejected h env long j s'
    | _ => none

/-- A service that, from the state `st`, rejects the next `j` calls of `Create`
and accepts the call after them, whatever the links are. -/
def rejectsThenAccepts {σ : Type} (svc : LinkService σ) : Nat → σ → Prop
  | 0, st => ∀ l, (svc.Create st l).1 = none
  | j + 1, st => ∀ l, (svc.Create st l).1 ≠ none ∧ rejectsThenAccepts svc j (svc.Create st l).2

/-- The events of a sequence of passes through the loop body, one pass per
link: the id is generated, then `Create` is called with the link. -/
def attemptEvents (links : List Link) : List Event :=
  links.flatMap (fun l => [Event.generated l.Id, Event.create l])

/-- The shape of an id in the reference policy: eight characters, each in
`[A-Za-z0-9]`. -/
def idShape (id : String) : Prop := id.length = 8 ∧ ∀ ch ∈ id.data, ch.isAlphanum = true

/-- A stub of the collaborator whose `Create` rejects the first `k` calls with
a conflict and accepts every later one; its state counts the calls of `Create`. -/
def stubService (k : Nat) : LinkService Nat where
  Create := fun n _ => (if n < k then some "conflict" else none, n + 1)
  GetAll := fun n => (Except.ok [], n)
  Delete := fun n _ => (none, n)

/-- A handler over `stubService k`. -/
def stubHandler (k : Nat) : LinkServiceHandler Nat := ⟨stubService k⟩

/-- The state of a fresh process over a stub. -/
def st0 : St Nat := ⟨0, cursor0, []⟩

/-- A URL of 522 characters whose UTF-8 encoding has 2049 bytes: `http://x.com/`
followed by 509 times the character U+1F600, four bytes each. -/
def wideURL : String := "http://x.com/" ++ String.mk (List.replicate 509 (Char.ofNat 0x1F600))

/-- The request URL of the examples. -/
def sampleURL : String := "https://example.com/path"

/-- The link of the third pass of `CreateLink` on `sampleURL` under `envGood`. -/
def thirdLink : Link := ⟨"qrstuvwx", sampleURL, 1700000000000000002⟩

/-- The state after two rejected passes on `sampleURL` under `envGood`. -/
def stTwice : St Nat :=
  ⟨2, ⟨16, 2⟩, attemptEvents [⟨"abcdefgh", sampleURL, 1700000000000000000⟩,
    ⟨"ijklmnop", sampleURL, 1700000000000000001⟩]⟩

/-- The state after three passes on `sampleURL` under `envGood`. -/
def stThrice : St Nat :=
  ⟨3, ⟨24, 3⟩, attemptEvents [⟨"abcdefgh", sampleURL, 1700000000000000000⟩,
    ⟨"ijklmnop", sampleURL, 1700000000000000001⟩, thirdLink]⟩

/-- The link `CreateLink` creates on `sampleURL` when the secure source is down. -/
def fallbackLink : Link := ⟨"fallback1700000000000000000", sampleURL, 1700000000000000001⟩

/-- A stub of the collaborator that keeps the links in a list: `Create` rejects
an id that is present, `GetAll` returns the list, `Delete` removes the id. -/
def listService : LinkService (List Link) where
  Create := fun store link =>
    if store.any (fun l => l.Id == link.Id) then (some "conflict", store)
    else (none, store ++ [link])
  GetAll := fun store => (Except.ok store, store)
  Delete := fun store id => (none, store.filter (fun l => l.Id != id))

/-- A stub of the collaborator that cannot reach its store: every call fails. -/
def failingService : LinkService Unit where
  Create := fun u _ => (some "connection refused", u)
  GetAll := fun u => (Except.error "connection refused", u)
  Delete := fun u _ => (some "connection refused", u)

/-- A state of `listService` that holds one link. -/
def stListed : St (List Link) := ⟨[⟨"abcdefgh", sampleURL, 1700000000000000000⟩], cursor0, []⟩

/-- The state of a fresh process over `failingService`. -/
def stFailing : St Unit := ⟨(), cursor0, []⟩

/-- The handler over the service of the specification. -/
def specHandler {ρ κ : Type} (repo : Repository ρ) (cache : Cache κ) : LinkServiceHandler (ρ × κ) :=
  ⟨specLinkService repo cache⟩

/-- An in-memory repository: the list of the stored links; `Create` reports a
conflict on an id that is present, `Delete` reports not-found on an id that is
absent. -/
def memRepo : Repository (List Link) where
  Create := fun store link =>
    if store.any (fun l => l.Id == link.Id) then (some RepoError.Conflict, store)
    else (none, store ++ [link])
  GetAll := fun store => (Except.ok store, store)
  Delete := fun store id =>
    if store.any (fun l => l.Id == id) then (none, store.filter (fun l => l.Id != id))
    else (some RepoError.NotFound, store)

/-- A repository that cannot be reached: every operation fails. -/
def downRepo : Repository Unit where
  Create := fun u _ => (some (RepoError.StoreError "connection refused"), u)
  GetAll := fun u => (Except.error (RepoError.StoreError "connection refused"), u)
  Delete := fun u _ => (some (RepoError.StoreError "connection refused"), u)

/-- An in-memory cache: an association list from ids to links. -/
def memCache : Cache (List (String × Link)) where
  Get := fun c id => c.lookup id
  Set := fun c id v => (none, (id, v) :: c.filter (fun p => p.1 != id))
  Delete := fun c id => (none, c.filter (fun p => p.1 != id))

/-- A stored link. -/
def storedLink : Link := ⟨"abcdefgh", sampleURL, 1700000000000000000⟩

/-- Modelled from the spec: the contents of a Link Cache, after §4.3 and §6: the
entries `id -> Link` of a key/value store whose operations are best-effort.
`faults` lists, for the coming calls of `Set` and `Delete`, whether the call
fails (`true`); past the end of the list no call fails. -/
structure CacheState where
  entries : List (String × Link)
  faults : List Bool
deriving DecidableEq, Repr

/-- Modelled from the spec: a Link Cache of §4.3 that can fail. `Get` looks the
id up; a `Set` or `Delete` that fails returns an error and leaves the entries
as they are, one that does not fail writes or removes the entry of the id. -/
def faultyCache : Cache CacheState where
  Get := fun c id => c.entries.lookup id
  Set := fun c id v =>
    match c.faults with
    | true :: rest => (some "cache unavailable", ⟨c.entries, rest⟩)
    | _ => (none, ⟨(id, v) :: c.entries.filter (fun p => p.1 != id), c.faults.tail⟩)
  Delete := fun c id =>
    match c.faults with
    | true :: rest => (some "cache unavailable", ⟨c.entries, rest⟩)
    | _ => (none, ⟨c.entries.filter (fun p => p.1 != id), c.faults.tail⟩)

/-- A state in which `storedLink` is in the repository and in the cache, and
the cache is healthy. -/
def stCached : St (List Link × CacheState) :=
  ⟨([storedLink], ⟨[("abcdefgh", storedLink)], []⟩), cursor0, []⟩

/-- As `stCached`, but the next call of the cache fails. -/
def stCacheFault : St (List Link × CacheState) :=
  ⟨([storedLink], ⟨[("abcdefgh", storedLink)], [true]⟩), cursor0, []⟩

/-- A state in which the healthy cache holds an entry under the empty id. -/
def stEmptyKey : St (List Link × CacheState) :=
  ⟨([], ⟨[("", storedLink)], []⟩), cursor0, []⟩

/-- A state over the unreachable repository, `storedLink` being in the healthy
cache. -/
def stDownCached : St (Unit × CacheState) :=
  ⟨((), ⟨[("abcdefgh", storedLink)], []⟩), cursor0, []⟩

/-- A state in which the repository and the cache are empty. -/
def stEmpty : St (List Link × List (String × Link)) := ⟨([], []), cursor0, []⟩

/-- A state over the unreachable repository, `storedLink` being cached. -/
def stDown : St (Unit × List (String × Link)) := ⟨((), [("abcdefgh", storedLink)]), cursor0, []⟩

/-! ## Lemmas on `generateShortURLID` -/

theorem charset_length : charset.data.length = 62 := by decide

theorem charset_get?_of_lt {k : Nat} (hk : k < 62) : charset.data.get? k = some (charAt k) := by
  have h : k < charset.data.length := by rw [charset_length]; exact hk
  simp [charAt, List.getD_eq_getElem?_getD, List.getElem?_eq_getElem h]

/-- When the next `n` draws succeed with indices `d 0, …, d (n-1)` below 62, the
loop appends the corresponding alphabet characters. -/
theorem fill_of_draws (env : Env) : ∀ (n : Nat) (d : Nat → Nat) (acc : List Char) (c : Cursor),
    (∀ i, i < n → env.randInt (c.rand + i) = some (d i) ∧ d i < 62) →
    fill env n acc c
      = some (String.mk (acc ++ (List.range n).map (fun i => charAt (d i))), ⟨c.rand + n, c.now⟩)
  | 0, d, acc, c, _ => by simp [fill]
  | n + 1, d, acc, c, h => by
    have h0 := h 0 (Nat.succ_pos n)
    have ih := fill_of_draws env n (fun i => d (i + 1)) (acc ++ [charAt (d 0)]) ⟨c.rand + 1, c.now⟩
      (fun i hi => by
        have := h (i + 1) (Nat.succ_lt_succ hi)
        simpa [Nat.add_assoc, Nat.add_comm 1 i] using this)
    simp only [Nat.add_zero] at h0
    simp only [fill, h0.1, charset_get?_of_lt h0.2, ih]
    simp [List.range_succ_eq_map, Nat.add_assoc, Nat.add_comm 1 n, Function.comp_def]

/-- When the draw at position `j` fails after `j` good draws, the loop returns
the fallback string. -/
theorem fill_of_failure (env : Env) : ∀ (n j : Nat) (acc : List Char) (c : Cursor),
    j < n →
    (∀ i, i < j → ∃ k, env.randInt (c.rand + i) = some k ∧ k < 62) →
    env.randInt (c.rand + j) = none →
    fill env n acc c
      = some ("fallback" ++ toString (env.unixNano c.now), ⟨c.rand + j + 1, c.now + 1⟩)
  | 0, j, _, _, hj, _, _ => absurd hj (Nat.not_lt_zero j)
  | n + 1, 0, acc, c, _, _, hfail => by
    simp only [Nat.add_zero] at hfail
    simp [fill, hfail]
  | n + 1, j + 1, acc, c, hj, hgood, hfail => by
    obtain ⟨k, hk, hk62⟩ := hgood 0 (Nat.succ_pos j)
    simp only [Nat.add_zero] at hk
    have ih := fill_of_failure env n j (acc ++ [charAt k]) ⟨c.rand + 1, c.now⟩
      (Nat.lt_of_succ_lt_succ hj)
      (fun i hi => by
        obtain ⟨k', hk', hk'62⟩ := hgood (i + 1) (Nat.succ_lt_succ hi)
        exact ⟨k', by simpa [Nat.add_assoc, Nat.add_comm 1 i] using hk', hk'62⟩)
      (by simpa [Nat.add_assoc, Nat.add_comm 1 j] using hfail)
    simp only [fill, hk, charset_get?_of_lt hk62, ih]
    simp [Nat.add_assoc, Nat.add_comm 1 j]

theorem charset_spelled : charset.data
    = (List.range 26).map (fun i => Char.ofNat (97 + i))
      ++ (List.range 26).map (fun i => Char.ofNat (65 + i))
      ++ (List.range 10).map (fun i => Char.ofNat (48 + i)) := by decide

theorem charset_size : charset.length = 62 := by decide

theorem charset_nodup : charset.data.Nodup := by decide

theorem charAt_inj : ∀ a : Fin 62, ∀ b : Fin 62, charAt a = charAt b → a = b := by decide!

theorem charAt_alnum : ∀ a : Fin 62, (charAt a).isAlphanum = true := by decide

/-- The result of `generateShortURLID` when the next `n` draws succeed. -/
theorem generateShortURLID_eq (env : Env) (n : Nat) (c : Cursor) (d : Nat → Nat)
    (hd : ∀ i, i < n → env.randInt (c.rand + i) = some (d i) ∧ d i < 62) :
    generateShortURLID env n c
      = some (String.mk ((List.range n).map (fun i => charAt (d i))), ⟨c.rand + n, c.now⟩) := by
  simpa [generateShortURLID] using fill_of_draws env n d [] c hd

/-- Each call of `generateShortURLID` with a positive length consumes at least
one draw. -/
theorem fill_rand (env : Env) : ∀ (n : Nat) (acc : List Char) (c c' : Cursor) (id : String),
    fill env n acc c = some (id, c') → c.rand ≤ c'.rand ∧ (0 < n → c.rand < c'.rand)
  | 0, acc, c, c', id, h => by
    simp only [fill, Option.some.injEq, Prod.mk.injEq] at h
    rw [← h.2]; simp
  | n + 1, acc, c, c', id, h => by
    unfold fill at h
    cases hr : env.randInt c.rand with
    | none =>
      simp only [hr, Option.some.injEq, Prod.mk.injEq] at h
      rw [← h.2]; simp
    | some k =>
      simp only [hr] at h
      cases hc : charset.data.get? k with
      | none => rw [hc] at h; simp at h
      | some ch =>
        rw [hc] at h
        have := (fill_rand env n (acc ++ [ch]) ⟨c.rand + 1, c.now⟩ c' id h).1
        simp only at this
        exact ⟨by omega, fun _ => by omega⟩

/-! ## Lemmas on the retry loop of `CreateLink` -/

/-- What one pass through the loop body does. -/
theorem attempt_some {σ : Type} (h : LinkServiceHandler σ) (env : Env) (long : String)
    (s s' : St σ) (link : Link) (e : Option String)
    (ha : attempt h env long s = some (link, e, s')) :
    (∃ c, generateShortURLID env 8 s.cur = some (link.Id, c) ∧ s'.cur = ⟨c.rand, c.now + 1⟩ ∧
      link.CreatedAt = env.unixNano c.now) ∧
    link.OriginalURL = long ∧
    e = (h.linkService.Create s.svc link).1 ∧ s'.svc = (h.linkService.Create s.svc link).2 ∧
    s'.trace = s.trace ++ attemptEvents [link] := by
  unfold attempt at ha
  cases hg : generateShortURLID env 8 s.cur with
  | none => simp [hg] at ha
  | some r =>
    obtain ⟨id, c⟩ := r
    simp only [hg, Option.some.injEq, Prod.mk.injEq] at ha
    obtain ⟨hl, he, hs⟩ := ha
    subst hl; subst he; subst hs
    exact ⟨⟨c, rfl, rfl, rfl⟩, rfl, rfl, rfl, by simp [attemptEvents]⟩

theorem attemptEvents_append (xs ys : List Link) :
    attemptEvents (xs ++ ys) = attemptEvents xs ++ attemptEvents ys := by
  simp [attemptEvents]

/-- The trace and the cursor after `j` rejected passes. -/
theorem rejected_some {σ : Type} (h : LinkServiceHandler σ) (env : Env) (long : String) :
    ∀ (j : Nat) (s sj : St σ), rejected h env long j s = some sj →
    ∃ links : List Link, links.length = j ∧ sj.trace = s.trace ++ attemptEvents links ∧
      (∀ l ∈ links, l.OriginalURL = long) ∧ s.cur.rand + j ≤ sj.cur.rand
  | 0, s, sj, hr => by
    simp only [rejected, Option.some.injEq] at hr
    subst hr
    exact ⟨[], rfl, by simp [attemptEvents], by simp, Nat.le_refl _⟩
  | j + 1, s, sj, hr => by
    simp only [rejected] at hr
    cases ha : attempt h env long s with
    | none => simp [ha] at hr
    | some r =>
      obtain ⟨l1, e1, s1⟩ := r
      cases e1 with
      | none => simp [ha] at hr
      | some e =>
        simp only [ha] at hr
        obtain ⟨links, hlen, htr, hurl, hcur⟩ := rejected_some h env long j s1 sj hr
        obtain ⟨⟨c, hg, hc1, _⟩, hl1, _, _, ht1⟩ := attempt_some h env long s s1 l1 (some e) ha
        have hfill := (fill_rand env 8 [] s.cur c l1.Id
          (by simpa [generateShortURLID] using hg)).2 (by decide)
        have hc1r : s1.cur.rand = c.rand := by rw [hc1]
        refine ⟨l1 :: links, by simp [hlen], ?_, ?_, ?_⟩
        · rw [htr, ht1, List.append_assoc, ← attemptEvents_append]; rfl
        · intro l hl
          rcases List.mem_cons.mp hl with rfl | hl
          · exact hl1
          · exact hurl l hl
        · omega

/-- The loop stops at the first pass that `Create` accepts. -/
theorem retry_accept {σ : Type} (h : LinkServiceHandler σ) (env : Env) (long : String)
    (link : Link) (s' : St σ) :
    ∀ (j n : Nat) (s sj : St σ) (l : Link) (e : Option String), j < n →
    rejected h env long j s = some sj → attempt h env long sj = some (link, none, s') →
    retry h env long n s l e = some (link, none, s')
  | _, 0, _, _, _, _, hn, _, _ => absurd hn (Nat.not_lt_zero _)
  | 0, n + 1, s, sj, l, e, _, hr, ha => by
    simp only [rejected, Option.some.injEq] at hr
    subst hr
    simp [retry, ha]
  | j + 1, n + 1, s, sj, l, e, hn, hr, ha => by
    simp only [rejected] at hr
    cases ha1 : attempt h env long s with
    | none => simp [ha1] at hr
    | some r =>
      obtain ⟨l1, e1, s1⟩ := r
      cases e1 with
      | none => simp [ha1] at hr
      | some e1 =>
        simp only [ha1] at hr
        simp only [retry, ha1]
        exact retry_accept h env long link s' j n s1 sj l1 (some e1) (Nat.lt_of_succ_lt_succ hn) hr ha

/-- The loop runs to its bound when `Create` rejects every pass. -/
theorem retry_exhaust {σ : Type} (h : LinkServiceHandler σ) (env : Env) (long : String) :
    ∀ (n : Nat) (s sn : St σ) (l : Link) (e : Option String),
    rejected h env long n s = some sn → (0 < n ∨ e ≠ none) →
    ∃ l' e', retry h env long n s l e = some (l', some e', sn)
  | 0, s, sn, l, e, hr, hne => by
    simp only [rejected, Option.some.injEq] at hr
    subst hr
    rcases hne with h0 | h0
    · exact absurd h0 (Nat.lt_irrefl 0)
    · cases e with
      | none => exact absurd rfl h0
      | some e' => exact ⟨l, e', by simp [retry]⟩
  | n + 1, s, sn, l, e, hr, _ => by
    simp only [rejected] at hr
    cases ha1 : attempt h env long s with
    | none => simp [ha1] at hr
    | some r =>
      obtain ⟨l1, e1, s1⟩ := r
      cases e1 with
      | none => simp [ha1] at hr
      | some e1 =>
        simp only [ha1] at hr
        simp only [retry, ha1]
        exact retry_exhaust h env long n s1 sn l1 (some e1) hr (Or.inr (by simp))

/-- On a URL that passes the checks, `CreateLink` is the retry loop followed by
the choice of the response. -/
theorem CreateLink_of_valid {σ : Type} (h : LinkServiceHandler σ) (env : Env) (long : String)
    (s : St σ) (hv : validURL env long) :
    h.CreateLink env long s =
      match retry h env long maxRetries s default none with
      | none => none
      | some (_, some _, s') =>
        some (⟨StatusInternalServerError,
          Body.error "Failed to create unique link, please try again"⟩, s')
      | some (link, none, s') => some (⟨StatusOK, Body.link link⟩, s') := by
  obtain ⟨hne, hp, hlen⟩ := hv
  unfold LinkServiceHandler.CreateLink
  cases hparse : env.ParseRequestURI long with
  | none => simp [hparse] at hp
  | some u =>
    simp only [hparse] at hp
    have h1 : ¬ ((u.Scheme ≠ utf8 "http" ∧ u.Scheme ≠ utf8 "https") ∨ u.Host = []) := by
      rintro (⟨ha, hb⟩ | hc)
      · rcases hp.1 with h' | h'
        · exact ha h'
        · exact hb h'
      · exact hp.2 hc
    have h2 : ¬ (long.utf8ByteSize > 2048) := Nat.not_lt.mpr hlen
    simp only [if_neg hne, if_neg h1, if_neg h2]

/-- On a URL that fails the checks, `CreateLink` answers 400 with an error body
and leaves the state as it is. -/
theorem CreateLink_of_invalid {σ : Type} (h : LinkServiceHandler σ) (env : Env) (long : String)
    (s : St σ) (hv : ¬ validURL env long) :
    ∃ r, h.CreateLink env long s = some (r, s) ∧ r.status = StatusBadRequest ∧
      ∀ link, r.body ≠ Body.link link := by
  unfold LinkServiceHandler.CreateLink
  by_cases hne : long = ""
  · exact ⟨⟨StatusBadRequest, Body.bindingError⟩, by rw [if_pos hne], rfl, fun _ hb => by cases hb⟩
  · rw [if_neg hne]
    cases hparse : env.ParseRequestURI long with
    | none =>
      exact ⟨⟨StatusBadRequest, Body.error "A valid URL with http or https scheme is required"⟩,
        rfl, rfl, fun _ hb => by cases hb⟩
    | some u =>
      by_cases h1 : (u.Scheme ≠ utf8 "http" ∧ u.Scheme ≠ utf8 "https") ∨ u.Host = []
      · exact ⟨⟨StatusBadRequest, Body.error "A valid URL with http or https scheme is required"⟩,
          by simp only [if_pos h1], rfl, fun _ hb => by cases hb⟩
      · by_cases h2 : long.utf8ByteSize > 2048
        · exact ⟨⟨StatusBadRequest, Body.error "URL cannot exceed 2048 characters"⟩,
            by simp only [if_neg h1, if_pos h2], rfl, fun _ hb => by cases hb⟩
        · exfalso
          apply hv
          refine ⟨hne, ?_, Nat.not_lt.mp h2⟩
          simp only [hparse]
          constructor
          · by_contra hc
            exact h1 (Or.inl ⟨fun a => hc (Or.inl a), fun a => hc (Or.inr a)⟩)
          · exact fun hc => h1 (Or.inr hc)

/-- What the loop leaves behind when it returns: one pass per link of `links`,
at most `n` of them, the last one being the link it returns. -/
theorem retry_some {σ : Type} (h : LinkServiceHandler σ) (env : Env) (long : String) :
    ∀ (n : Nat) (s s' : St σ) (l l' : Link) (e e' : Option String),
    retry h env long n s l e = some (l', e', s') →
    ∃ links : List Link, links.length ≤ n ∧ s'.trace = s.trace ++ attemptEvents links ∧
      (∀ x ∈ links, x.OriginalURL = long ∧
        ∃ c c', generateShortURLID env 8 c = some (x.Id, c')) ∧
      (0 < n → ∃ init, links = init ++ [l']) ∧
      (0 < n → s.cur.rand < s'.cur.rand)
  | 0, s, s', l, l', e, e', hr => by
    simp only [retry, Option.some.injEq, Prod.mk.injEq] at hr
    obtain ⟨_, _, hs⟩ := hr
    subst hs
    exact ⟨[], Nat.le_refl _, by simp [attemptEvents], by simp, fun h0 => absurd h0 (Nat.lt_irrefl 0),
      fun h0 => absurd h0 (Nat.lt_irrefl 0)⟩
  | n + 1, s, s', l, l', e, e', hr => by
    simp only [retry] at hr
    cases ha1 : attempt h env long s with
    | none => simp [ha1] at hr
    | some r =>
      obtain ⟨l1, e1, s1⟩ := r
      obtain ⟨⟨c, hg, hc1, _⟩, hl1, _, _, ht1⟩ := attempt_some h env long s s1 l1 e1 ha1
      have hfill := (fill_rand env 8 [] s.cur c l1.Id
        (by simpa [generateShortURLID] using hg)).2 (by decide)
      have hc1r : s1.cur.rand = c.rand := by rw [hc1]
      cases e1 with
      | none =>
        simp only [ha1, Option.some.injEq, Prod.mk.injEq] at hr
        obtain ⟨h1, _, h3⟩ := hr
        subst h1; subst h3
        exact ⟨[l1], by simp, ht1, by
          intro x hx
          rw [List.mem_singleton.mp hx]
          exact ⟨hl1, _, _, hg⟩, fun _ => ⟨[], rfl⟩, fun _ => by omega⟩
      | some e1 =>
        simp only [ha1] at hr
        obtain ⟨links, hlen, htr, hall, hlast, hcur⟩ :=
          retry_some h env long n s1 s' l1 l' (some e1) e' hr
        refine ⟨l1 :: links, by simp; omega, ?_, ?_, ?_, ?_⟩
        · rw [htr, ht1, List.append_assoc, ← attemptEvents_append]; rfl
        · intro x hx
          rcases List.mem_cons.mp hx with rfl | hx
          · exact ⟨hl1, _, _, hg⟩
          · exact hall x hx
        · intro _
          cases n with
          | zero =>
            simp only [retry, Option.some.injEq, Prod.mk.injEq] at hr
            have hnil : links = [] := List.eq_nil_of_length_eq_zero (Nat.le_zero.mp hlen)
            exact ⟨[], by rw [hnil, hr.1]; rfl⟩
          | succ m =>
            obtain ⟨init, hinit⟩ := hlast (Nat.succ_pos m)
            exact ⟨l1 :: init, by rw [hinit]; rfl⟩
        · intro _
          cases n with
          | zero =>
            simp only [retry, Option.some.injEq, Prod.mk.injEq] at hr
            rw [← hr.2.2]; omega
          | succ m =>
            have := hcur (Nat.succ_pos m)
            omega

/-- With a secure source that never fails, `generateShortURLID` returns. -/
theorem generateShortURLID_total (env : Env)
    (hsrc : ∀ n, ∃ k, env.randInt n = some k ∧ k < 62) (n : Nat) (c : Cursor) :
    generateShortURLID env n c
      = some (String.mk ((List.range n).map
          (fun i => charAt ((env.randInt (c.rand + i)).getD 0))), ⟨c.rand + n, c.now⟩) := by
  apply generateShortURLID_eq env n c (fun i => (env.randInt (c.rand + i)).getD 0)
  intro i _
  obtain ⟨k, hk, hk62⟩ := hsrc (c.rand + i)
  simp [hk, hk62]

/-- With a secure source that never fails, every result of
`generateShortURLID(8)` has the shape of an id. -/
theorem generateShortURLID_shape (env : Env)
    (hsrc : ∀ n, ∃ k, env.randInt n = some k ∧ k < 62) (c c' : Cursor) (id : String)
    (hg : generateShortURLID env 8 c = some (id, c')) : idShape id := by
  rw [generateShortURLID_total env hsrc 8 c] at hg
  simp only [Option.some.injEq, Prod.mk.injEq] at hg
  rw [← hg.1]
  refine ⟨by simp [String.length], ?_⟩
  intro ch hch
  simp only [List.mem_map, List.mem_range] at hch
  obtain ⟨i, _, hi⟩ := hch
  obtain ⟨k, hk, hk62⟩ := hsrc (c.rand + i)
  rw [← hi, hk]
  exact charAt_alnum ⟨k, hk62⟩

/-- When every value that `rand.Int` returns is below 62, as its contract says,
`generateShortURLID` returns. -/
theorem fill_total (env : Env) (hc : ∀ n k, env.randInt n = some k → k < 62) :
    ∀ (n : Nat) (acc : List Char) (c : Cursor), ∃ id c', fill env n acc c = some (id, c')
  | 0, acc, c => ⟨_, _, rfl⟩
  | n + 1, acc, c => by
    unfold fill
    cases hr : env.randInt c.rand with
    | none => exact ⟨_, _, rfl⟩
    | some k =>
      simp only [charset_get?_of_lt (hc _ _ hr)]
      exact fill_total env hc n _ _

/-- Under the contract of `rand.Int`, the loop returns. -/
theorem retry_total {σ : Type} (h : LinkServiceHandler σ) (env : Env) (long : String)
    (hc : ∀ n k, env.randInt n = some k → k < 62) :
    ∀ (n : Nat) (s : St σ) (l : Link) (e : Option String),
    ∃ l' e' s', retry h env long n s l e = some (l', e', s')
  | 0, s, l, e => ⟨l, e, s, rfl⟩
  | n + 1, s, l, e => by
    have ha : ∃ l1 e1 s1, attempt h env long s = some (l1, e1, s1) := by
      obtain ⟨id, c', hg⟩ := fill_total env hc 8 [] s.cur
      simp [attempt, generateShortURLID, hg]
    obtain ⟨l1, e1, s1, ha⟩ := ha
    cases e1 with
    | none => exact ⟨l1, none, s1, by simp [retry, ha]⟩
    | some e1 =>
      obtain ⟨l', e', s', hr⟩ := retry_total h env long hc n s1 l1 (some e1)
      exact ⟨l', e', s', by simp [retry, ha, hr]⟩

/-- The answer of `CreateLink` is 400 exactly on the URLs that fail the checks. -/
theorem CreateLink_invalid_iff {σ : Type} (h : LinkServiceHandler σ) (env : Env) (long : String)
    (s : St σ) :
    (∃ r s', h.CreateLink env long s = some (r, s') ∧ InvalidArgument r) ↔ ¬ validURL env long := by
  constructor
  · rintro ⟨r, s', hr, h400⟩ hv
    rw [CreateLink_of_valid h env long s hv] at hr
    split at hr
    · simp at hr
    · simp only [Option.some.injEq, Prod.mk.injEq] at hr
      rw [← hr.1] at h400
      simp [InvalidArgument, StatusInternalServerError, StatusBadRequest] at h400
    · simp only [Option.some.injEq, Prod.mk.injEq] at hr
      rw [← hr.1] at h400
      simp [InvalidArgument, StatusOK, StatusBadRequest] at h400
  · intro hv
    obtain ⟨r, hr, h400, _⟩ := CreateLink_of_invalid h env long s hv
    exact ⟨r, s, hr, h400⟩

/-- Under the contract of `rand.Int`, a pass through the loop body completes,
with the result of `Create` on the link it built. -/
theorem attempt_total {σ : Type} (h : LinkServiceHandler σ) (env : Env) (long : String)
    (hc : ∀ n k, env.randInt n = some k → k < 62) (s : St σ) :
    ∃ link s', attempt h env long s = some (link, (h.linkService.Create s.svc link).1, s') ∧
      s'.svc = (h.linkService.Create s.svc link).2 := by
  obtain ⟨id, c', hg⟩ := fill_total env hc 8 [] s.cur
  refine ⟨{ Id := id, OriginalURL := long, CreatedAt := env.unixNano c'.now },
    { svc := (h.linkService.Create s.svc
        { Id := id, OriginalURL := long, CreatedAt := env.unixNano c'.now }).2,
      cur := ⟨c'.rand, c'.now + 1⟩,
      trace := s.trace ++ [Event.generated id,
        Event.create { Id := id, OriginalURL := long, CreatedAt := env.unixNano c'.now }] },
    ?_, rfl⟩
  simp only [attempt, generateShortURLID, hg]

/-- Over a service that rejects `j` calls and accepts the next, the loop body is
rejected `j` times and accepted then. -/
theorem rejected_of_rejectsThenAccepts {σ : Type} (h : LinkServiceHandler σ) (env : Env)
    (long : String) (hc : ∀ n k, env.randInt n = some k → k < 62) :
    ∀ (j : Nat) (s : St σ), rejectsThenAccepts h.linkService j s.svc →
    ∃ sj link s', rejected h env long j s = some sj ∧
      attempt h env long sj = some (link, none, s')
  | 0, s, hr => by
    obtain ⟨link, s', ha, _⟩ := attempt_total h env long hc s
    rw [hr link] at ha
    exact ⟨s, link, s', rfl, ha⟩
  | j + 1, s, hr => by
    obtain ⟨l1, s1, ha, hs1⟩ := attempt_total h env long hc s
    obtain ⟨hne, hrest⟩ := hr l1
    rw [← hs1] at hrest
    obtain ⟨sj, link, s', hrj, hacc⟩ := rejected_of_rejectsThenAccepts h env long hc j s1 hrest
    cases he : (h.linkService.Create s.svc l1).1 with
    | none => exact absurd he hne
    | some e =>
      rw [he] at ha
      exact ⟨sj, link, s', by simp only [rejected, ha, hrj], hacc⟩

/-- Over a service whose `Create` always fails, every pass of the loop body is
rejected. -/
theorem rejected_of_always_fails {σ : Type} (h : LinkServiceHandler σ) (env : Env)
    (long : String) (hc : ∀ n k, env.randInt n = some k → k < 62)
    (hfail : ∀ st l, (h.linkService.Create st l).1 ≠ none) :
    ∀ (j : Nat) (s : St σ), ∃ sj, rejected h env long j s = some sj
  | 0, s => ⟨s, rfl⟩
  | j + 1, s => by
    obtain ⟨l1, s1, ha, _⟩ := attempt_total h env long hc s
    obtain ⟨sj, hrj⟩ := rejected_of_always_fails h env long hc hfail j s1
    cases he : (h.linkService.Create s.svc l1).1 with
    | none => exact absurd he (hfail _ _)
    | some e =>
      rw [he] at ha
      exact ⟨sj, by simp only [rejected, ha, hrj]⟩

/-- The checks depend on the environment through the URL parser only. -/
theorem validURL_congr (env env' : Env) (long : String)
    (hp : env.ParseRequestURI = env'.ParseRequestURI) : validURL env long ↔ validURL env' long := by
  unfold validURL
  rw [hp]

theorem length_le_utf8ByteSize (s : String) : s.length ≤ s.utf8ByteSize := by
  obtain ⟨l⟩ := s
  induction l with
  | nil => simp [String.utf8ByteSize, String.utf8ByteSize.go]
  | cons a l ih =>
    have := Char.utf8Size_pos a
    simp only [String.utf8ByteSize, String.utf8ByteSize.go, String.length, List.length_cons] at ih ⊢
    omega

/-! ## The identifier generator (claims C9, C10) -/

/-- C9: for every length `n`, when each of the next `n` draws succeeds with an
index `d i` below 62, `generateShortURLID(n)` returns a string of exactly `n`
characters whose `i`-th character is the alphabet character at index `d i`
(an index inside the alphabet); the alphabet is a-z, A-Z, 0-9, 62 pairwise
distinct characters; and a second run whose draws differ from `d` at some
position below `n` returns a different id. -/
theorem generateShortURLID_of_draws (env : Env) (n : Nat) (c : Cursor) (d : Nat → Nat)
    (hd : ∀ i, i < n → env.randInt (c.rand + i) = some (d i) ∧ d i < 62) :
    (∃ id, generateShortURLID env n c = some (id, ⟨c.rand + n, c.now⟩) ∧ id.length = n ∧
      ∀ i, i < n → d i < charset.length ∧ id.data.get? i = charset.data.get? (d i)) ∧
    (charset.data = (List.range 26).map (fun i => Char.ofNat (97 + i))
        ++ (List.range 26).map (fun i => Char.ofNat (65 + i))
        ++ (List.range 10).map (fun i => Char.ofNat (48 + i)) ∧
      charset.length = 62 ∧ charset.data.Nodup) ∧
    (∀ (env' : Env) (c' : Cursor) (d' : Nat → Nat),
      (∀ i, i < n → env'.randInt (c'.rand + i) = some (d' i) ∧ d' i < 62) →
      (∃ i, i < n ∧ d i ≠ d' i) →
      ∀ (id id' : String) (k k' : Cursor), generateShortURLID env n c = some (id, k) →
        generateShortURLID env' n c' = some (id', k') → id ≠ id') := by
  refine ⟨⟨_, generateShortURLID_eq env n c d hd, by simp [String.length], ?_⟩,
    ⟨charset_spelled, charset_size, charset_nodup⟩, ?_⟩
  · intro i hi
    refine ⟨Nat.lt_of_lt_of_eq (hd i hi).2 charset_size.symm, ?_⟩
    rw [charset_get?_of_lt (hd i hi).2]
    simp [List.get?_eq_getElem?, List.getElem?_map, List.getElem?_range hi]
  · intro env' c' d' hd' hne id id' k k' hid hid' heq
    rw [generateShortURLID_eq env n c d hd] at hid
    rw [generateShortURLID_eq env' n c' d' hd'] at hid'
    obtain ⟨i, hi, hdi⟩ := hne
    have h1 : String.mk ((List.range n).map (fun i => charAt (d i))) = id := by
      injection hid with h; exact congrArg Prod.fst h
    have h2 : String.mk ((List.range n).map (fun i => charAt (d' i))) = id' := by
      injection hid' with h; exact congrArg Prod.fst h
    have h3 : (List.range n).map (fun i => charAt (d i))
        = (List.range n).map (fun i => charAt (d' i)) := by
      have := h1.trans (heq.trans h2.symm)
      injection this
    have h4 := List.map_inj_left.mp h3 i (List.mem_range.mpr hi)
    have h5 := charAt_inj ⟨d i, (hd i hi).2⟩ ⟨d' i, (hd' i hi).2⟩ h4
    exact hdi (congrArg Fin.val h5)

/-- C9 at a concrete run: eight draws 0, 1, …, 7. -/
theorem generateShortURLID_of_draws_witness :
    (∀ i, i < 8 → envGood.randInt (cursor0.rand + i) = some (i % 62) ∧ i % 62 < 62) ∧
    (∃ id, generateShortURLID envGood 8 cursor0 = some (id, ⟨cursor0.rand + 8, cursor0.now⟩) ∧
      id.length = 8 ∧
      ∀ i, i < 8 → i % 62 < charset.length ∧ id.data.get? i = charset.data.get? (i % 62)) :=
  ⟨fun i _ => ⟨by simp [envGood, cursor0], Nat.mod_lt i (by decide)⟩,
   (generateShortURLID_of_draws envGood 8 cursor0 (fun i => i % 62)
      (fun i _ => ⟨by simp [envGood, cursor0], Nat.mod_lt i (by decide)⟩)).1⟩

/-- C10: when the draw at a position `j` of a length `n > j` fails (the draws
before it having succeeded), `generateShortURLID(n)` still returns a string,
namely "fallback" followed by the decimal digits of the clock reading in
nanoseconds: none of the characters already drawn is in it, and it is the same
for every length and every position of the failure. -/
theorem generateShortURLID_fallback (env : Env) (n j : Nat) (c : Cursor) (hj : j < n)
    (hgood : ∀ i, i < j → ∃ k, env.randInt (c.rand + i) = some k ∧ k < 62)
    (hfail : env.randInt (c.rand + j) = none) :
    generateShortURLID env n c
      = some ("fallback" ++ toString (env.unixNano c.now), ⟨c.rand + j + 1, c.now + 1⟩) := by
  simpa [generateShortURLID] using fill_of_failure env n j [] c hj hgood hfail

/-- C10 at a concrete run: length 8, the fourth draw fails. -/
theorem generateShortURLID_fallback_witness :
    (3 < 8 ∧ (∀ i, i < 3 → ∃ k, envFlaky.randInt (cursor0.rand + i) = some k ∧ k < 62) ∧
      envFlaky.randInt (cursor0.rand + 3) = none) ∧
    generateShortURLID envFlaky 8 cursor0 = some ("fallback1700000000000000000", ⟨4, 1⟩) :=
  have hgood : ∀ i, i < 3 → ∃ k, envFlaky.randInt (cursor0.rand + i) = some k ∧ k < 62 :=
    fun i hi => ⟨i % 62, by simp [envFlaky, cursor0, Nat.ne_of_lt hi], Nat.mod_lt i (by decide)⟩
  ⟨⟨by decide, hgood, by simp [envFlaky, cursor0]⟩,
   (generateShortURLID_fallback envFlaky 8 3 cursor0 (by decide) hgood
      (by simp [envFlaky, cursor0])).trans (by decide)⟩

/-! ## `CreateLink` (claims C1 to C4) -/

/-- C1, as the claim states it, fails: `wideURL` is an absolute `http` URL with
the host `x.com` and 522 characters, at most 2048, and `CreateLink` rejects it
with 400 "URL cannot exceed 2048 characters", because `len` counts the 2049
bytes of its encoding. -/
theorem CreateLink_length_counterexample :
    (url.ParseRequestURI wideURL = some ⟨utf8 "http", utf8 "x.com"⟩ ∧
      wideURL.length = 522 ∧ wideURL.length ≤ 2048 ∧ wideURL.utf8ByteSize = 2049) ∧
    (stubHandler 0).CreateLink envGood wideURL st0
      = some (⟨StatusBadRequest, Body.error "URL cannot exceed 2048 characters"⟩, st0) := by
  decide!

/-- C1 (amended): `CreateLink` answers `InvalidArgument` exactly when the
request URL fails the checks `validURL` (it is empty or `url.ParseRequestURI`
reports an error, its scheme is neither `http` nor `https`, its host is empty,
or its UTF-8 encoding is longer than 2048 bytes), and then the state is
untouched: no id generated, no call of `Create`. A URL that passes the checks
goes on to the creation attempts: whenever the handler answers, at least one
id has been generated from fresh draws and passed to `Create` in a link with
that URL, and the handler does answer when `rand.Int` keeps to its range. Every
URL of more than 2048 characters is rejected; with Go's `url.ParseRequestURI`,
"ftp://x.com" and "not a url" are rejected and "https://example.com/path"
passes the checks and is not answered with `InvalidArgument`. -/
theorem CreateLink_validation {σ : Type} (h : LinkServiceHandler σ) (env : Env) (long : String)
    (s : St σ) :
    ((∃ r s', h.CreateLink env long s = some (r, s') ∧ InvalidArgument r) ↔ ¬ validURL env long) ∧
    (∀ r s', h.CreateLink env long s = some (r, s') → InvalidArgument r → s' = s) ∧
    (validURL env long → ∀ r s', h.CreateLink env long s = some (r, s') →
      ∃ link links, s'.trace = s.trace ++ attemptEvents (link :: links) ∧
        link.OriginalURL = long ∧ s.cur.rand < s'.cur.rand) ∧
    (validURL env long → (∀ n k, env.randInt n = some k → k < 62) →
      ∃ r s', h.CreateLink env long s = some (r, s')) ∧
    (2048 < long.length → ∃ r, h.CreateLink env long s = some (r, s) ∧ InvalidArgument r) ∧
    (env.ParseRequestURI = url.ParseRequestURI →
      (∃ r, h.CreateLink env "ftp://x.com" s = some (r, s) ∧ InvalidArgument r) ∧
      (∃ r, h.CreateLink env "not a url" s = some (r, s) ∧ InvalidArgument r) ∧
      validURL env "https://example.com/path" ∧
      ∀ r s', h.CreateLink env "https://example.com/path" s = some (r, s') → ¬ InvalidArgument r) := by
  have hiff := CreateLink_invalid_iff h env long s
  refine ⟨hiff, ?_, ?_, ?_, ?_, ?_⟩
  · intro r s' hr h400
    obtain ⟨r0, hr0, _, _⟩ := CreateLink_of_invalid h env long s (hiff.mp ⟨r, s', hr, h400⟩)
    rw [hr0] at hr
    simp only [Option.some.injEq, Prod.mk.injEq] at hr
    exact hr.2.symm
  · intro hv r s' hr
    rw [CreateLink_of_valid h env long s hv] at hr
    have key : ∀ l' e', retry h env long maxRetries s default none = some (l', e', s') →
        ∃ link links, s'.trace = s.trace ++ attemptEvents (link :: links) ∧
          link.OriginalURL = long ∧ s.cur.rand < s'.cur.rand := by
      intro l' e' hret
      obtain ⟨links, _, htr, hall, hlast, hcur⟩ :=
        retry_some h env long maxRetries s s' default l' none e' hret
      obtain ⟨init, hinit⟩ := hlast (by decide)
      cases links with
      | nil => cases init <;> simp at hinit
      | cons a rest => exact ⟨a, rest, htr, (hall a (List.mem_cons_self a rest)).1, hcur (by decide)⟩
    split at hr
    · simp at hr
    · rename_i l' e' s1 hret
      simp only [Option.some.injEq, Prod.mk.injEq] at hr
      obtain ⟨_, hs⟩ := hr
      subst hs
      exact key _ _ hret
    · rename_i l' s1 hret
      simp only [Option.some.injEq, Prod.mk.injEq] at hr
      obtain ⟨_, hs⟩ := hr
      subst hs
      exact key _ _ hret
  · intro hv hc
    rw [CreateLink_of_valid h env long s hv]
    obtain ⟨l', e', s', hret⟩ := retry_total h env long hc maxRetries s default none
    rw [hret]
    cases e' with
    | none => exact ⟨_, _, rfl⟩
    | some e' => exact ⟨_, _, rfl⟩
  · intro hlong
    have hv : ¬ validURL env long := fun hv =>
      absurd (Nat.lt_of_lt_of_le hlong (length_le_utf8ByteSize long)) (Nat.not_lt.mpr hv.2.2)
    obtain ⟨r, hr, h400, _⟩ := CreateLink_of_invalid h env long s hv
    exact ⟨r, hr, h400⟩
  · intro hgo
    have hgo' : env.ParseRequestURI = envGood.ParseRequestURI := hgo
    have h1 : ¬ validURL env "ftp://x.com" := fun hv =>
      absurd ((validURL_congr env envGood _ hgo').mp hv) (by decide)
    have h2 : ¬ validURL env "not a url" := fun hv =>
      absurd ((validURL_congr env envGood _ hgo').mp hv) (by decide)
    have h3 : validURL env "https://example.com/path" :=
      (validURL_congr env envGood _ hgo').mpr (by decide)
    obtain ⟨r1, hr1, h1', _⟩ := CreateLink_of_invalid h env "ftp://x.com" s h1
    obtain ⟨r2, hr2, h2', _⟩ := CreateLink_of_invalid h env "not a url" s h2
    exact ⟨⟨r1, hr1, h1'⟩, ⟨r2, hr2, h2'⟩, h3, fun r s' hr h400 =>
      (CreateLink_invalid_iff h env "https://example.com/path" s).mp ⟨r, s', hr, h400⟩ h3⟩

/-- C1 (amended) at a concrete request: `sampleURL` passes the checks and the
handler answers. -/
theorem CreateLink_validation_witness :
    (validURL envGood sampleURL ∧ ∀ n k, envGood.randInt n = some k → k < 62) ∧
    ∃ r s', (stubHandler 0).CreateLink envGood sampleURL st0 = some (r, s') :=
  have hc : ∀ n k, envGood.randInt n = some k → k < 62 := fun n k hk => by
    simp only [envGood, Option.some.injEq] at hk
    rw [← hk]; exact Nat.mod_lt n (by decide)
  ⟨⟨by decide, hc⟩,
   (CreateLink_validation (stubHandler 0) envGood sampleURL st0).2.2.2.1 (by decide) hc⟩

/-- C2: for a URL that passes the checks and `1 ≤ k ≤ 3`, when `Create`
rejects the first `k - 1` passes of the loop and accepts the `k`-th,
`CreateLink` answers 200 with the link built in the `k`-th pass: its id is the
id generated in that pass and its `OriginalURL` is the request URL. The
handler made `k` passes, each one generating an id and calling `Create` once,
the last call being the accepted one, and the state it leaves is the state
right after that call. Such a run takes place, and the handler answers 200,
over every service that rejects `k - 1` calls of `Create` and accepts the next
one (`rand.Int` keeping to its range). -/
theorem CreateLink_recovers {σ : Type} (h : LinkServiceHandler σ) (env : Env) (long : String)
    (s : St σ) (k : Nat) (hk1 : 1 ≤ k) (hk3 : k ≤ 3) (hv : validURL env long) :
    (∀ (sk s' : St σ) (link : Link),
      rejected h env long (k - 1) s = some sk →
      attempt h env long sk = some (link, none, s') →
      h.CreateLink env long s = some (⟨StatusOK, Body.link link⟩, s') ∧
      link.OriginalURL = long ∧
      (∃ c, generateShortURLID env 8 sk.cur = some (link.Id, c)) ∧
      (∃ links : List Link, links.length = k ∧ links.getLast? = some link ∧
        s'.trace = s.trace ++ attemptEvents links ∧ ∀ l ∈ links, l.OriginalURL = long) ∧
      s'.svc = (h.linkService.Create sk.svc link).2) ∧
    ((∀ n i, env.randInt n = some i → i < 62) →
      rejectsThenAccepts h.linkService (k - 1) s.svc →
      ∃ (sk s' : St σ) (link : Link), rejected h env long (k - 1) s = some sk ∧
        attempt h env long sk = some (link, none, s') ∧
        h.CreateLink env long s = some (⟨StatusOK, Body.link link⟩, s')) := by
  have hret : ∀ (sk s' : St σ) (link : Link), rejected h env long (k - 1) s = some sk →
      attempt h env long sk = some (link, none, s') →
      h.CreateLink env long s = some (⟨StatusOK, Body.link link⟩, s') := by
    intro sk s' link hrej hacc
    rw [CreateLink_of_valid h env long s hv,
      retry_accept h env long link s' (k - 1) maxRetries s sk default none
        (by simp only [maxRetries]; omega) hrej hacc]
  refine ⟨?_, ?_⟩
  · intro sk s' link hrej hacc
    obtain ⟨⟨c, hg, _, _⟩, hurl, _, hsvc, htr⟩ := attempt_some h env long sk s' link none hacc
    obtain ⟨links, hlen, htrk, hall, _⟩ := rejected_some h env long (k - 1) s sk hrej
    refine ⟨hret sk s' link hrej hacc, hurl, ⟨c, hg⟩, ⟨links ++ [link], ?_, ?_, ?_, ?_⟩, hsvc⟩
    · simp [hlen]; omega
    · simp
    · rw [htr, htrk, List.append_assoc, ← attemptEvents_append]
    · intro l hl
      rcases List.mem_append.mp hl with hl | hl
      · exact hall l hl
      · rw [List.mem_singleton.mp hl]; exact hurl
  · intro hc hsvc
    obtain ⟨sk, link, s', hrej, hacc⟩ :=
      rejected_of_rejectsThenAccepts h env long hc (k - 1) s hsvc
    exact ⟨sk, s', link, hrej, hacc, hret sk s' link hrej hacc⟩

/-- C2 at the case of the specification: `Create` rejects twice with a conflict
and accepts the third call. -/
theorem CreateLink_recovers_witness :
    (1 ≤ 3 ∧ 3 ≤ 3 ∧ validURL envGood sampleURL ∧
      rejected (stubHandler 2) envGood sampleURL (3 - 1) st0 = some stTwice ∧
      attempt (stubHandler 2) envGood sampleURL stTwice = some (thirdLink, none, stThrice) ∧
      (∀ n i, envGood.randInt n = some i → i < 62) ∧
      rejectsThenAccepts (stubHandler 2).linkService (3 - 1) st0.svc) ∧
    (stubHandler 2).CreateLink envGood sampleURL st0
      = some (⟨StatusOK, Body.link thirdLink⟩, stThrice) ∧
    ∃ (sk s' : St Nat) (link : Link), rejected (stubHandler 2) envGood sampleURL (3 - 1) st0 = some sk ∧
      attempt (stubHandler 2) envGood sampleURL sk = some (link, none, s') ∧
      (stubHandler 2).CreateLink envGood sampleURL st0 = some (⟨StatusOK, Body.link link⟩, s') :=
  have hc : ∀ n i, envGood.randInt n = some i → i < 62 := fun n i hi => by
    simp only [envGood, Option.some.injEq] at hi
    rw [← hi]; exact Nat.mod_lt n (by decide)
  have hsvc : rejectsThenAccepts (stubHandler 2).linkService (3 - 1) st0.svc := by
    simp [rejectsThenAccepts, stubHandler, stubService, st0]
  ⟨⟨by decide, by decide, by decide, by decide, by decide, hc, hsvc⟩,
   ((CreateLink_recovers (stubHandler 2) envGood sampleURL st0 3
      (by decide) (by decide) (by decide)).1 stTwice stThrice thirdLink
      (by decide) (by decide)).1,
   (CreateLink_recovers (stubHandler 2) envGood sampleURL st0 3
      (by decide) (by decide) (by decide)).2 hc hsvc⟩

/-- C3: for a URL that passes the checks, when `Create` rejects each of the
three passes of the loop, whatever the errors are, `CreateLink` answers
`CreateFailed`, 500 "Failed to create unique link, please try again". It made
exactly three passes, each one generating an id from fresh draws and calling
`Create` once with a link of that id and the request URL, and no call after
the third. Such a run takes place, and the handler answers `CreateFailed`,
over every service whose `Create` always fails (`rand.Int` keeping to its
range). -/
theorem CreateLink_exhausts {σ : Type} (h : LinkServiceHandler σ) (env : Env) (long : String)
    (s : St σ) (hv : validURL env long) :
    (∀ s3 : St σ, rejected h env long 3 s = some s3 →
      (∃ r, h.CreateLink env long s = some (r, s3) ∧ CreateFailed r) ∧
      (∃ links : List Link, links.length = 3 ∧ s3.trace = s.trace ++ attemptEvents links ∧
        ∀ l ∈ links, l.OriginalURL = long) ∧
      s.cur.rand + 3 ≤ s3.cur.rand) ∧
    ((∀ n i, env.randInt n = some i → i < 62) →
      (∀ st l, (h.linkService.Create st l).1 ≠ none) →
      ∃ s3 r, rejected h env long 3 s = some s3 ∧
        h.CreateLink env long s = some (r, s3) ∧ CreateFailed r) := by
  have hret : ∀ s3 : St σ, rejected h env long 3 s = some s3 →
      h.CreateLink env long s = some (⟨StatusInternalServerError,
        Body.error "Failed to create unique link, please try again"⟩, s3) := by
    intro s3 hrej
    obtain ⟨l', e', hr⟩ := retry_exhaust h env long 3 s s3 default none hrej (Or.inl (by decide))
    rw [CreateLink_of_valid h env long s hv]
    simp only [maxRetries, hr]
  refine ⟨?_, ?_⟩
  · intro s3 hrej
    obtain ⟨links, hlen, htr, hall, hcur⟩ := rejected_some h env long 3 s s3 hrej
    exact ⟨⟨_, hret s3 hrej, rfl⟩, ⟨links, hlen, htr, hall⟩, hcur⟩
  · intro hc hfail
    obtain ⟨s3, hrej⟩ := rejected_of_always_fails h env long hc hfail 3 s
    exact ⟨s3, _, hrej, hret s3 hrej, rfl⟩

/-- C3 at the case of the specification, `Create` always reporting a conflict,
and over a service that cannot reach its store. -/
theorem CreateLink_exhausts_witness :
    (validURL envGood sampleURL ∧
      rejected (stubHandler 5) envGood sampleURL 3 st0 = some stThrice ∧
      (∀ n i, envGood.randInt n = some i → i < 62) ∧
      ∀ st l, (failingService.Create st l).1 ≠ none) ∧
    (∃ r, (stubHandler 5).CreateLink envGood sampleURL st0 = some (r, stThrice) ∧ CreateFailed r) ∧
    ∃ s3 r, rejected (LinkServiceHandler.mk failingService) envGood sampleURL 3 stFailing = some s3 ∧
      (LinkServiceHandler.mk failingService).CreateLink envGood sampleURL stFailing = some (r, s3) ∧
      CreateFailed r :=
  have hc : ∀ n i, envGood.randInt n = some i → i < 62 := fun n i hi => by
    simp only [envGood, Option.some.injEq] at hi
    rw [← hi]; exact Nat.mod_lt n (by decide)
  have hfail : ∀ st l, (failingService.Create st l).1 ≠ none := by
    intro st l
    simp [failingService]
  ⟨⟨by decide, by decide, hc, hfail⟩,
   ((CreateLink_exhausts (stubHandler 5) envGood sampleURL st0 (by decide)).1 stThrice
      (by decide)).1,
   (CreateLink_exhausts (LinkServiceHandler.mk failingService) envGood sampleURL stFailing
      (by decide)).2 hc hfail⟩

/-- C4, as the claim states it, fails: when the secure source is down,
`CreateLink` creates a link whose id is "fallback1700000000000000000", 27
characters long. -/
theorem CreateLink_id_counterexample :
    (stubHandler 0).CreateLink envDown sampleURL st0
      = some (⟨StatusOK, Body.link fallbackLink⟩,
          ⟨1, ⟨1, 2⟩, attemptEvents [fallbackLink]⟩) ∧
    fallbackLink.Id.length = 27 ∧ ¬ idShape fallbackLink.Id :=
  ⟨by decide, by decide, fun hshape => absurd hshape.1 (by decide)⟩

/-- C4 (amended): when no draw of the secure source fails, every result of
`generateShortURLID(8)` has length 8 and only characters of `[A-Za-z0-9]`, and
so has every id `CreateLink` generates: the handler answers, each pass of its
loop generated an id of that shape for the link it passed to `Create`, and the
link of a 200 answer has an id of that shape. -/
theorem CreateLink_id_shape {σ : Type} (h : LinkServiceHandler σ) (env : Env) (long : String)
    (s : St σ) (hsrc : ∀ n, ∃ k, env.randInt n = some k ∧ k < 62) :
    (∀ c, ∃ id c', generateShortURLID env 8 c = some (id, c') ∧ idShape id) ∧
    (∃ r s' links, h.CreateLink env long s = some (r, s') ∧
      s'.trace = s.trace ++ attemptEvents links ∧ (∀ l ∈ links, idShape l.Id) ∧
      ∀ link, r.body = Body.link link → idShape link.Id) := by
  have hc : ∀ n k, env.randInt n = some k → k < 62 := fun n k hk => by
    obtain ⟨k', hk', hk'62⟩ := hsrc n
    rw [hk] at hk'
    simp only [Option.some.injEq] at hk'
    rw [hk']; exact hk'62
  refine ⟨fun c => ⟨_, _, generateShortURLID_total env hsrc 8 c,
    generateShortURLID_shape env hsrc c _ _ (generateShortURLID_total env hsrc 8 c)⟩, ?_⟩
  by_cases hv : validURL env long
  · obtain ⟨l', e', s', hret⟩ := retry_total h env long hc maxRetries s default none
    obtain ⟨links, _, htr, hall, hlast, _⟩ :=
      retry_some h env long maxRetries s s' default l' none e' hret
    have hshape : ∀ l ∈ links, idShape l.Id := fun l hl => by
      obtain ⟨_, c, c', hg⟩ := hall l hl
      exact generateShortURLID_shape env hsrc c c' l.Id hg
    obtain ⟨init, hinit⟩ := hlast (by decide)
    have hmem : l' ∈ links := by rw [hinit]; simp
    rw [CreateLink_of_valid h env long s hv, hret]
    cases e' with
    | none =>
      refine ⟨_, _, links, rfl, htr, hshape, ?_⟩
      intro link hb
      simp only [Body.link.injEq] at hb
      rw [← hb]; exact hshape l' hmem
    | some e' =>
      exact ⟨_, _, links, rfl, htr, hshape, fun _ hb => by cases hb⟩
  · obtain ⟨r, hr, _, hbody⟩ := CreateLink_of_invalid h env long s hv
    exact ⟨r, s, [], hr, by simp [attemptEvents], by simp, fun link hb => absurd hb (hbody link)⟩

/-- C4 (amended) under a secure source that never fails. -/
theorem CreateLink_id_shape_witness :
    (∀ n, ∃ k, envGood.randInt n = some k ∧ k < 62) ∧
    ∀ c, ∃ id c', generateShortURLID envGood 8 c = some (id, c') ∧ idShape id :=
  ⟨fun n => ⟨n % 62, rfl, Nat.mod_lt n (by decide)⟩,
   (CreateLink_id_shape (stubHandler 0) envGood sampleURL st0
      (fun n => ⟨n % 62, rfl, Nat.mod_lt n (by decide)⟩)).1⟩

/-! ## `GetAllLinks` and `DeleteLink` (claims C5 to C8) -/

/-- A key is not found among the entries from which it has been filtered out. -/
theorem lookup_filter_ne (c : List (String × Link)) (id : String) :
    (c.filter (fun p => p.1 != id)).lookup id = none := by
  induction c with
  | nil => rfl
  | cons p c ih =>
    obtain ⟨k, v⟩ := p
    by_cases hk : k = id
    · subst hk
      have hb : (k != k) = false := by simp
      simp only [List.filter, hb]
      exact ih
    · have hb : (k != id) = true := by simp [hk]
      have hk' : (id == k) = false := by simpa using fun hid => hk hid.symm
      simp only [List.filter, hb, List.lookup, hk']
      exact ih

/-- A `Delete` of the cache that can fail, when it reports no error, leaves
the id not found. -/
theorem faultyCache_get_delete (c : CacheState) (id : String)
    (hok : (faultyCache.Delete c id).1 = none) :
    faultyCache.Get (faultyCache.Delete c id).2 id = none := by
  obtain ⟨entries, faults⟩ := c
  cases faults with
  | nil => exact lookup_filter_ne entries id
  | cons f rest =>
    cases f with
    | true => simp [faultyCache] at hok
    | false => exact lookup_filter_ne entries id

/-- What `DeleteLink` does on a non-empty id over the service of the
specification. -/
theorem specHandler_DeleteLink {ρ κ : Type} (repo : Repository ρ) (cache : Cache κ)
    (id : String) (s : St (ρ × κ)) (hid : id ≠ "") :
    ((specHandler repo cache).DeleteLink id s).2.svc
      = ((repo.Delete s.svc.1 id).2, (cache.Delete s.svc.2 id).2) ∧
    ((specHandler repo cache).DeleteLink id s).1
      = match (repo.Delete s.svc.1 id).1 with
        | none => ⟨StatusNoContent, Body.null⟩
        | some RepoError.NotFound => ⟨StatusNoContent, Body.null⟩
        | some e => ⟨StatusInternalServerError, Body.error e.Error⟩ := by
  simp only [LinkServiceHandler.DeleteLink, if_neg hid, specHandler, specLinkService]
  rcases hrepo : repo.Delete s.svc.1 id with ⟨e, r⟩
  cases e with
  | none => exact ⟨rfl, rfl⟩
  | some e => cases e <;> exact ⟨rfl, rfl⟩

/-- C5, as the claim states it, fails at the empty id: it does not exist in
the repository (the store is empty, the repository reports not-found), and
`DeleteLink` answers 400 "ID parameter is required", not success. -/
theorem DeleteLink_absent_counterexample :
    (memRepo.Delete stEmpty.svc.1 "").1 = some RepoError.NotFound ∧
    ((specHandler memRepo memCache).DeleteLink "" stEmpty).1
      = ⟨StatusBadRequest, Body.error "ID parameter is required"⟩ ∧
    ¬ Deleted ((specHandler memRepo memCache).DeleteLink "" stEmpty).1 :=
  ⟨by decide, by decide, fun hdel => absurd hdel (by decide)⟩

/-- C5 (amended): for every non-empty id, `DeleteLink` answers success, 204,
when the repository's `Delete` reports no error or reports not-found (the id
does not exist), and it answers `StoreError`, 500, exactly when the
repository's `Delete` fails with an error other than not-found. -/
theorem DeleteLink_outcome {ρ κ : Type} (repo : Repository ρ) (cache : Cache κ)
    (id : String) (s : St (ρ × κ)) (hid : id ≠ "") :
    (((repo.Delete s.svc.1 id).1 = none ∨ (repo.Delete s.svc.1 id).1 = some RepoError.NotFound) →
      Deleted ((specHandler repo cache).DeleteLink id s).1) ∧
    (StoreError ((specHandler repo cache).DeleteLink id s).1 ↔
      ∃ e, (repo.Delete s.svc.1 id).1 = some e ∧ e ≠ RepoError.NotFound) := by
  rw [(specHandler_DeleteLink repo cache id s hid).2]
  cases hrepo : (repo.Delete s.svc.1 id).1 with
  | none => simp [Deleted, StoreError, StatusNoContent, StatusInternalServerError]
  | some e =>
    cases e <;> simp [Deleted, StoreError, StatusNoContent, StatusInternalServerError]

/-- C5 (amended) at concrete stores: an id absent from the in-memory repository
is deleted with success, and over the unreachable repository the answer is a
`StoreError`. -/
theorem DeleteLink_outcome_witness :
    ("zzzzzzzz" ≠ "" ∧ (memRepo.Delete stEmpty.svc.1 "zzzzzzzz").1 = some RepoError.NotFound) ∧
    Deleted ((specHandler memRepo memCache).DeleteLink "zzzzzzzz" stEmpty).1 ∧
    StoreError ((specHandler downRepo memCache).DeleteLink "zzzzzzzz" stDown).1 :=
  ⟨⟨by decide, by decide⟩,
   (DeleteLink_outcome memRepo memCache "zzzzzzzz" stEmpty (by decide)).1 (Or.inr (by decide)),
   (DeleteLink_outcome downRepo memCache "zzzzzzzz" stDown (by decide)).2.mpr
     ⟨RepoError.StoreError "connection refused", by decide, by decide⟩⟩

/-- C6: with the empty id `DeleteLink` answers `InvalidArgument`, 400 "ID
parameter is required", and leaves the state as it is: no call reaches the
service, hence none the repository or the cache behind it. With a non-empty id
it calls `Delete` of the service exactly once, with that id, and nothing
else. -/
theorem DeleteLink_calls {σ : Type} (h : LinkServiceHandler σ) (id : String) (s : St σ) :
    (h.DeleteLink "" s = (⟨StatusBadRequest, Body.error "ID parameter is required"⟩, s) ∧
      InvalidArgument (h.DeleteLink "" s).1) ∧
    (id ≠ "" →
      (h.DeleteLink id s).2.trace = s.trace ++ [Event.delete id] ∧
      (h.DeleteLink id s).2.svc = (h.linkService.Delete s.svc id).2 ∧
      (h.DeleteLink id s).2.cur = s.cur) := by
  refine ⟨⟨by simp [LinkServiceHandler.DeleteLink], by simp [LinkServiceHandler.DeleteLink, InvalidArgument]⟩, ?_⟩
  intro hid
  simp only [LinkServiceHandler.DeleteLink, if_neg hid]
  cases (h.linkService.Delete s.svc id).1 <;> exact ⟨rfl, rfl, rfl⟩

/-- C6 at a concrete state: deleting the stored link makes one call of `Delete`
with its id, which removes it. -/
theorem DeleteLink_calls_witness :
    "abcdefgh" ≠ "" ∧
    ((LinkServiceHandler.mk listService).DeleteLink "abcdefgh" stListed).2.trace
      = stListed.trace ++ [Event.delete "abcdefgh"] ∧
    ((LinkServiceHandler.mk listService).DeleteLink "abcdefgh" stListed).2.svc = [] :=
  ⟨by decide,
   ((DeleteLink_calls (LinkServiceHandler.mk listService) "abcdefgh" stListed).2 (by decide)).1,
   ((DeleteLink_calls (LinkServiceHandler.mk listService) "abcdefgh" stListed).2 (by decide)).2.1.trans
     (by decide)⟩

/-- C7, as the claim states it, fails in two ways. When the `Delete` of the
cache fails, `DeleteLink("abcdefgh")` still answers success, the link is gone
from the repository, and a lookup of the id in the cache finds the link. And
with the empty id `DeleteLink` answers 400 and deletes nothing from the cache:
an entry under the empty id is still found. -/
theorem DeleteLink_cache_counterexample :
    (Deleted ((specHandler memRepo faultyCache).DeleteLink "abcdefgh" stCacheFault).1 ∧
      ((specHandler memRepo faultyCache).DeleteLink "abcdefgh" stCacheFault).2.svc.1 = [] ∧
      faultyCache.Get ((specHandler memRepo faultyCache).DeleteLink "abcdefgh" stCacheFault).2.svc.2
        "abcdefgh" = some storedLink) ∧
    (((specHandler memRepo faultyCache).DeleteLink "" stEmptyKey).1
        = ⟨StatusBadRequest, Body.error "ID parameter is required"⟩ ∧
      faultyCache.Get ((specHandler memRepo faultyCache).DeleteLink "" stEmptyKey).2.svc.2 ""
        = some storedLink) := by
  decide

/-- C7 (amended): on a non-empty id `DeleteLink` issues the `Delete` of that id
to the cache whatever the repository's `Delete` returns, for every repository
and every cache: the cache it leaves is the one that call yields. Over the
cache that can fail, when that call did not fail a lookup of the id reports
not found afterwards, whatever the repository's `Delete` returned and whatever
the cache held before; in particular after `DeleteLink(id)` has answered
success. -/
theorem DeleteLink_cache {ρ κ : Type} (repo : Repository ρ) (cache : Cache κ)
    (id : String) (s : St (ρ × κ)) (t : St (ρ × CacheState)) :
    (id ≠ "" →
      ((specHandler repo cache).DeleteLink id s).2.svc.2 = (cache.Delete s.svc.2 id).2) ∧
    (id ≠ "" → (faultyCache.Delete t.svc.2 id).1 = none →
      faultyCache.Get ((specHandler repo faultyCache).DeleteLink id t).2.svc.2 id = none) ∧
    (Deleted ((specHandler repo faultyCache).DeleteLink id t).1 →
      (faultyCache.Delete t.svc.2 id).1 = none →
      faultyCache.Get ((specHandler repo faultyCache).DeleteLink id t).2.svc.2 id = none) := by
  have hget : id ≠ "" → (faultyCache.Delete t.svc.2 id).1 = none →
      faultyCache.Get ((specHandler repo faultyCache).DeleteLink id t).2.svc.2 id = none := by
    intro hid hok
    rw [(specHandler_DeleteLink repo faultyCache id t hid).1]
    exact faultyCache_get_delete t.svc.2 id hok
  refine ⟨fun hid => by rw [(specHandler_DeleteLink repo cache id s hid).1], hget, ?_⟩
  intro hdel hok
  by_cases hid : id = ""
  · subst hid
    simp [LinkServiceHandler.DeleteLink, Deleted, StatusBadRequest, StatusNoContent] at hdel
  · exact hget hid hok

/-- C7 (amended) at concrete states: with a healthy cache the cached link is
not found after a successful delete, nor after a delete that the unreachable
repository failed. -/
theorem DeleteLink_cache_witness :
    ("abcdefgh" ≠ "" ∧
      Deleted ((specHandler memRepo faultyCache).DeleteLink "abcdefgh" stCached).1 ∧
      (faultyCache.Delete stCached.svc.2 "abcdefgh").1 = none ∧
      (faultyCache.Delete stDownCached.svc.2 "abcdefgh").1 = none) ∧
    faultyCache.Get stCached.svc.2 "abcdefgh" = some storedLink ∧
    faultyCache.Get ((specHandler memRepo faultyCache).DeleteLink "abcdefgh" stCached).2.svc.2
      "abcdefgh" = none ∧
    StoreError ((specHandler downRepo faultyCache).DeleteLink "abcdefgh" stDownCached).1 ∧
    faultyCache.Get ((specHandler downRepo faultyCache).DeleteLink "abcdefgh" stDownCached).2.svc.2
      "abcdefgh" = none ∧
    ((specHandler downRepo faultyCache).DeleteLink "abcdefgh" stDownCached).2.svc.2
      = (faultyCache.Delete stDownCached.svc.2 "abcdefgh").2 :=
  ⟨⟨by decide, by decide, by decide, by decide⟩, by decide,
   (DeleteLink_cache memRepo faultyCache "abcdefgh" stCached stCached).2.2 (by decide) (by decide),
   by decide,
   (DeleteLink_cache downRepo faultyCache "abcdefgh" stDownCached stDownCached).2.1
     (by decide) (by decide),
   (DeleteLink_cache downRepo faultyCache "abcdefgh" stDownCached stDownCached).1 (by decide)⟩

/-- C8: `GetAllLinks` makes one call, `GetAll` of the service. When that call
succeeds the handler answers 200 with exactly the list it returned; when it
fails, whatever the error, the handler answers `StoreError`, 500 "Failed to
get links", a body that holds no links. -/
theorem GetAllLinks_delegates {σ : Type} (h : LinkServiceHandler σ) (s : St σ) :
    (∀ links, (h.linkService.GetAll s.svc).1 = Except.ok links →
      (h.GetAllLinks s).1 = ⟨StatusOK, Body.links links⟩) ∧
    (∀ e, (h.linkService.GetAll s.svc).1 = Except.error e →
      (h.GetAllLinks s).1 = ⟨StatusInternalServerError, Body.error "Failed to get links"⟩ ∧
      StoreError (h.GetAllLinks s).1) ∧
    (h.GetAllLinks s).2.trace = s.trace ++ [Event.getAll] ∧
    (h.GetAllLinks s).2.svc = (h.linkService.GetAll s.svc).2 ∧
    (h.GetAllLinks s).2.cur = s.cur := by
  simp only [LinkServiceHandler.GetAllLinks]
  cases hres : (h.linkService.GetAll s.svc).1 with
  | error e => simp [StoreError]
  | ok links => simp

/-- C8 at concrete stores: the stored link is listed, and the service that
cannot reach its store gives a `StoreError`. -/
theorem GetAllLinks_delegates_witness :
    ((listService.GetAll stListed.svc).1 = Except.ok stListed.svc ∧
      (failingService.GetAll stFailing.svc).1 = Except.error "connection refused") ∧
    ((LinkServiceHandler.mk listService).GetAllLinks stListed).1
      = ⟨StatusOK, Body.links stListed.svc⟩ ∧
    StoreError ((LinkServiceHandler.mk failingService).GetAllLinks stFailing).1 :=
  ⟨⟨rfl, rfl⟩,
   (GetAllLinks_delegates (LinkServiceHandler.mk listService) stListed).1 stListed.svc rfl,
   ((GetAllLinks_delegates (LinkServiceHandler.mk failingService) stFailing).2.1
      "connection refused" rfl).2⟩

end UrlShortener
